import Mathlib

/-!
Shallow embedding of the access-control and appointment-lifecycle core of the
pawdex-backend repository, together with theorems settling the specification
claims about it.  Every definition follows the corresponding TypeScript
source; external effects (database rows, JWT signing, bcrypt) are modelled
explicitly as data so that every definition is executable.
-/

deriving instance DecidableEq for Except

namespace Pawdex

/-! ## JavaScript string primitives

`jsReplaceFirst` models `String.prototype.replace` with a string pattern,
which replaces only the FIRST occurrence of the pattern.  `jsEndsWith`
models `String.prototype.endsWith`.  `jsTruthy` models the JS truthiness
test on an optional string: `undefined`, `null` and the empty string are
all falsy. -/

def replaceFirstL (pat repl : List Char) : List Char → List Char
  | [] => []
  | c :: rest =>
    if pat.isPrefixOf (c :: rest) then repl ++ (c :: rest).drop pat.length
    else c :: replaceFirstL pat repl rest

def jsReplaceFirst (s pat repl : String) : String :=
  ⟨replaceFirstL pat.data repl.data s.data⟩

def jsEndsWith (s suffix : String) : Bool :=
  suffix.data.isSuffixOf s.data

def jsStartsWith (s pre : String) : Bool :=
  pre.data.isPrefixOf s.data

def jsTruthy : Option String → Option String
  | some s => if s.isEmpty then none else some s
  | none => none

def jsOr (a b : Option String) : Option String :=
  match jsTruthy a with
  | some s => some s
  | none => jsTruthy b

/-! ## Appointment lifecycle state machine

From `src/appointments/entities/appointment.entity.ts`.  The entity keeps
`status` as a plain string; `updateStatus` validates the transition and
then assigns the new status.  We model the mutation as an `Except`: an
`.error` result is the thrown domain error, in which case the assignment
never runs and the status is left unchanged, while `.ok s` is the new
value of the status field. -/

inductive ApptStatus
  | scheduled
  | confirmed
  | inProgress
  | completed
  | cancelled
  | noShow
deriving DecidableEq, Fintype

/-- String representation used by the `AppointmentStatus` TypeScript union
type (underscore spelling). -/
def ApptStatus.str : ApptStatus → String
  | .scheduled => "scheduled"
  | .confirmed => "confirmed"
  | .inProgress => "in_progress"
  | .completed => "completed"
  | .cancelled => "cancelled"
  | .noShow => "no_show"

namespace Appt

/-- The literal deny-list from `Appointment.validateStatusTransition`. -/
def invalidTransitions : List (String × String) :=
  [ ("completed", "scheduled"), ("completed", "confirmed"), ("completed", "in_progress"),
    ("cancelled", "scheduled"), ("cancelled", "confirmed"), ("cancelled", "in_progress"),
    ("no_show", "scheduled"), ("no_show", "confirmed"), ("no_show", "in_progress") ]

/-- `Appointment.validateStatusTransition`: returns the thrown error message
when the pair is on the deny-list, `none` when the transition is allowed. -/
def validateStatusTransition (current newStatus : String) : Option String :=
  if invalidTransitions.any (fun t => t.1 == current && t.2 == newStatus) then
    some ("Cannot change status from " ++ current ++ " to " ++ newStatus)
  else
    none

/-- `Appointment.updateStatus`: validate, then assign.  `.error msg` models
the throw (status unchanged), `.ok s` the new status value. -/
def updateStatus (current newStatus : String) : Except String String :=
  match validateStatusTransition current newStatus with
  | some msg => .error msg
  | none => .ok newStatus

end Appt

/-! ## Appointments service

From `src/appointments/appointments.service.ts`.  A stored appointment row
carries the foreign key `statusId` plus the joined status relation, whose
`name` may be absent; `mapToAppointmentData` exposes
`status?.name || statusId`.  Each operation is modelled on the row it
loaded; the result is the `statusId` value written back to the store (or
the thrown service error). -/

structure ApptRow where
  statusId : String
  statusName : Option String
deriving DecidableEq

/-- `mapToAppointmentData`: `prismaAppointment.status?.name || prismaAppointment.statusId`
(JS `||`, so an empty relation name also falls back to the id). -/
def apptStatusOf (row : ApptRow) : String :=
  match row.statusName with
  | some n => if n.isEmpty then row.statusId else n
  | none => row.statusId

inductive SvcError
  | notFound (msg : String)
  | badRequest (msg : String)
deriving DecidableEq

/-- The status argument union type of `AppointmentsService.updateStatus`,
whose spellings are hyphenated for `in-progress` and `no-show`. -/
inductive SvcStatus
  | scheduled
  | confirmed
  | inProgress
  | completed
  | cancelled
  | noShow
deriving DecidableEq, Fintype

def SvcStatus.arg : SvcStatus → String
  | .scheduled => "scheduled"
  | .confirmed => "confirmed"
  | .inProgress => "in-progress"
  | .completed => "completed"
  | .cancelled => "cancelled"
  | .noShow => "no-show"

/-- `AppointmentsService.update` on a loaded row: rejects when the joined
status relation is named `completed`, rejects a past date, and otherwise
writes the dto status (when truthy) straight to `statusId` with no
transition validation.  Returns the `statusId` written back. -/
def svcUpdate (now : Nat) (row : ApptRow) (dtoDate : Option Nat)
    (dtoStatus : Option String) : Except SvcError String :=
  if row.statusName == some "completed" then
    .error (.badRequest "Cannot update completed appointment")
  else if (match dtoDate with | some d => decide (d < now) | none => false) then
    .error (.badRequest "Scheduled date cannot be in the past")
  else
    .ok (match jsTruthy dtoStatus with
         | some s => s
         | none => row.statusId)

/-- `AppointmentsService.updateStatus` on a loaded row: computes
`statusId = status.replace('-', '_')`, validates the transition of the
entity built from the row against the RAW (possibly hyphenated) argument,
and on success writes the underscore `statusId`. -/
def svcUpdateStatus (row : ApptRow) (st : SvcStatus) : Except SvcError String :=
  let statusId := jsReplaceFirst st.arg "-" "_"
  match Appt.validateStatusTransition (apptStatusOf row) st.arg with
  | some msg => .error (.badRequest msg)
  | none => .ok statusId

/-- `AppointmentsService.cancel` on a loaded row: only `scheduled` and
`confirmed` rows (by `statusId`) may be cancelled. -/
def svcCancel (row : ApptRow) : Except SvcError String :=
  if row.statusId != "scheduled" && row.statusId != "confirmed" then
    .error (.badRequest ("Appointment cannot be cancelled. Current status: " ++ row.statusId))
  else
    .ok "cancelled"

/-- `AppointmentsService.remove`: soft delete, unconditionally writes
`cancelled`. -/
def svcRemove (_row : ApptRow) : Except SvcError String :=
  .ok "cancelled"

/-- The three absorbing statuses, by stored id. -/
def absorbingIds : List String := ["completed", "cancelled", "no_show"]

/-- The three earlier lifecycle statuses, by stored id. -/
def earlierIds : List String := ["scheduled", "confirmed", "in_progress"]

def isAbsorbing : ApptStatus → Bool
  | .completed => true
  | .cancelled => true
  | .noShow => true
  | _ => false

def isEarlier : ApptStatus → Bool
  | .scheduled => true
  | .confirmed => true
  | .inProgress => true
  | _ => false

/-! ## Permission evaluation engine

From `src/permissions/permissions.service.ts`.  The database rows loaded
by `getUserPermissions` are the user, its role, the role-permission join
rows and the joined permission catalog entries; `PermsEnv` packages the
result of the two queries the service issues. -/

structure Permission where
  name : String
  isActive : Bool
deriving DecidableEq

structure RolePermission where
  permission : Permission
deriving DecidableEq

structure PRole where
  permissions : List RolePermission
deriving DecidableEq

structure PUser where
  role : PRole
deriving DecidableEq

structure PermsEnv where
  user? : Option PUser
  catalog : List Permission
deriving DecidableEq

/-- Names of all active catalog permissions, as returned by the
`findMany({ where: { isActive: true } })` query. -/
def activeCatalogNames (env : PermsEnv) : List String :=
  (env.catalog.filter (fun p => p.isActive)).map (fun p => p.name)

/-- `PermissionsService.getUserPermissions`.  The `system.admin` shortcut
tests the RAW assignment names, before any active filtering; only the
non-shortcut branch filters assignments by the active flag of the joined
permission. -/
def getUserPermissions (env : PermsEnv) : List String :=
  match env.user? with
  | none => []
  | some user =>
    let userPermissions := user.role.permissions.map (fun rp => rp.permission.name)
    if userPermissions.contains "system.admin" then
      activeCatalogNames env
    else
      userPermissions.filter (fun name =>
        match user.role.permissions.find? (fun rp => rp.permission.name == name) with
        | some rp => rp.permission.isActive
        | none => false)

/-- `PermissionsService.hasPermission`: exact match, then the
`system.admin` shortcut, then the `:own` scoping rule, which strips the
FIRST occurrence of `:own` (JS `replace`) from the required name. -/
def hasPermission (env : PermsEnv) (required : String) : Bool :=
  let userPermissions := getUserPermissions env
  if userPermissions.contains required then true
  else if userPermissions.contains "system.admin" then true
  else if jsEndsWith required ":own" then
    userPermissions.contains (jsReplaceFirst required ":own" "")
  else false

/-! ## Feature flag registry

From `src/feature-flags/feature-flags.service.ts`.
`isFeatureFlagEnabled` loads the flag by key with its role assignments
filtered to the supplied role id (the prisma `include ... where`), then
looks the role up in the filtered list. -/

structure RoleFlag where
  roleId : String
  isEnabled : Bool
deriving DecidableEq

structure FeatureFlag where
  key : String
  isActive : Bool
  isGlobal : Bool
  roleFlags : List RoleFlag
deriving DecidableEq

/-- The role-assignment lookup inside `isFeatureFlagEnabled`: the prisma
`include ... where roleId` filter followed by
`featureFlag.roleFlags.find(rf => rf.roleId === roleId)` and
`roleAssignment?.isEnabled ?? false`. -/
def roleFlagLookup (roleFlags : List RoleFlag) (rid : String) : Bool :=
  match (roleFlags.filter (fun rf => rf.roleId == rid)).find?
      (fun rf => rf.roleId == rid) with
  | some ra => ra.isEnabled
  | none => false

/-- `FeatureFlagsService.isFeatureFlagEnabled`. -/
def isFeatureFlagEnabled (registry : List FeatureFlag) (key : String)
    (roleId : Option String) : Bool :=
  match registry.find? (fun f => f.key == key) with
  | none => false
  | some featureFlag =>
    if featureFlag.isActive = false then false
    else if featureFlag.isGlobal then true
    else
      match roleId with
      | none => false
      | some rid => roleFlagLookup featureFlag.roleFlags rid

/-! ## Tenant directory

From `src/tenants/tenants.service.ts`.  `findOne` throws `NotFound` for a
missing id; `findBySubdomain` throws `NotFound` for a missing subdomain
and `BadRequest` for an inactive tenant. -/

structure ATenant where
  id : String
  name : String
  subdomain : String
  slug : String
  isActive : Bool
deriving DecidableEq

inductive AuthError
  | unauthorized (msg : String)
  | badRequest (msg : String)
  | conflict (msg : String)
  | notFound (msg : String)
deriving DecidableEq

def tenantsFindOne (tenants : List ATenant) (id : String) : Except AuthError ATenant :=
  match tenants.find? (fun t => t.id == id) with
  | none => .error (.notFound "Tenant not found")
  | some t => .ok t

def tenantsFindBySubdomain (tenants : List ATenant) (subdomain : String) :
    Except AuthError ATenant :=
  match tenants.find? (fun t => t.subdomain == subdomain) with
  | none => .error (.notFound "Tenant not found")
  | some t =>
    if t.isActive = false then .error (.badRequest "Tenant is inactive")
    else .ok t

/-! ## Session authority (tenant-aware AuthService)

JWTs are modelled structurally: `jwtSign` records the payload with the
issue time and expiry, `jwtVerify` checks only the expiry (a token value
of type `Jwt` is by construction correctly signed; forged strings are
outside the model).  `bcryptHash` is an abstract injective one-way hash
and `bcryptCompare` its check, mirroring the only property of bcrypt the
service relies on. -/

structure JwtPayload where
  sub : String
  email : String
  roleId : String
  tenantId : Option String
deriving DecidableEq

structure Jwt where
  payload : JwtPayload
  iat : Nat
  exp : Nat
deriving DecidableEq

def jwtSign (p : JwtPayload) (now lifetime : Nat) : Jwt :=
  ⟨p, now, now + lifetime⟩

def jwtVerify (t : Jwt) (now : Nat) : Option JwtPayload :=
  if now < t.exp then some t.payload else none

def bcryptHash (password : String) : String :=
  "$2b$12$" ++ password

def bcryptCompare (password hash : String) : Bool :=
  hash == bcryptHash password

/-- The fixed stored-expiry window `7 * 24 * 60 * 60 * 1000` ms. -/
def sevenDaysMs : Nat := 7 * 24 * 60 * 60 * 1000

structure AuthUser where
  id : String
  email : String
  name : String
  password : String
  roleId : String
  tenantId : Option String
  isActive : Bool
  refreshToken : Option Jwt
  refreshTokenExpiresAt : Option Nat
deriving DecidableEq

structure AuthDb where
  users : List AuthUser
  tenants : List ATenant
  roles : List String
deriving DecidableEq

structure RegisterDto where
  email : String
  password : String
  name : String
  roleId : String
  tenantId : String
deriving DecidableEq

structure LoginDto where
  email : String
  password : String
  tenant : Option String
deriving DecidableEq

structure AuthTokens where
  accessToken : Jwt
  refreshToken : Jwt
deriving DecidableEq

/-- Database-generated id for a created user row. -/
def freshUserId (db : AuthDb) : String :=
  "u" ++ toString db.users.length

/-- The per-row update applied when overwriting a stored refresh token. -/
def refreshUpd (uid : String) (rt : Jwt) (expAt : Nat) (u : AuthUser) : AuthUser :=
  if u.id == uid then
    { u with refreshToken := some rt, refreshTokenExpiresAt := some expAt }
  else u

/-- Overwrite the stored refresh token of the user with the given id
(`prisma.user.update`). -/
def storeRefresh (db : AuthDb) (uid : String) (rt : Jwt) (expAt : Nat) : AuthDb :=
  { db with users := db.users.map (refreshUpd uid rt expAt) }

/-- `AuthService.register` (tenant-aware variant): validates the tenant,
tenant-scoped email uniqueness and the role, hashes the password, creates
the user and stores the fresh refresh token.  The user create and the
follow-up refresh-token update are collapsed into appending the final row. -/
def register (db : AuthDb) (now accessLifetime refreshLifetime : Nat)
    (dto : RegisterDto) : Except AuthError (AuthDb × AuthTokens) :=
  match tenantsFindOne db.tenants dto.tenantId with
  | .error e => .error e
  | .ok tenant =>
    if tenant.isActive = false then
      .error (.badRequest "Tenant is not active")
    else
      match db.users.find? (fun u => u.email == dto.email && u.tenantId == some dto.tenantId) with
      | some _ => .error (.conflict "User with this email already exists in this tenant")
      | none =>
        if db.roles.contains dto.roleId = false then
          .error (.badRequest "Invalid role ID")
        else
          .ok ({ db with users := db.users ++
                  [⟨freshUserId db, dto.email, dto.name, bcryptHash dto.password, dto.roleId,
                    some dto.tenantId, true,
                    some (jwtSign ⟨freshUserId db, dto.email, dto.roleId, some dto.tenantId⟩
                      now refreshLifetime),
                    some (now + sevenDaysMs)⟩] },
               ⟨jwtSign ⟨freshUserId db, dto.email, dto.roleId, some dto.tenantId⟩
                  now accessLifetime,
                jwtSign ⟨freshUserId db, dto.email, dto.roleId, some dto.tenantId⟩
                  now refreshLifetime⟩)

/-- Resolution of the optional tenant hint inside `AuthService.login`: id
shape (`startsWith('c') && length > 20`) selects lookup by id, otherwise
by subdomain.  Any throw inside the surrounding `try` is converted by the
`catch` into the `Invalid tenant` error, including the explicit inactive
check. -/
def loginHintLookup (db : AuthDb) (hint : String) : Except AuthError ATenant :=
  if jsStartsWith hint "c" && decide (hint.length > 20) then
    tenantsFindOne db.tenants hint
  else
    tenantsFindBySubdomain db.tenants hint

def loginResolveHint (db : AuthDb) (hint : String) : Except AuthError ATenant :=
  match loginHintLookup db hint with
  | .error _ => .error (.unauthorized "Invalid tenant")
  | .ok t =>
    if t.isActive = false then .error (.unauthorized "Invalid tenant")
    else .ok t

/-- The `findFirst` where-clause of `AuthService.login`: email, active
flag, and the tenant scope when a tenant hint resolved. -/
def loginUserPred (dto : LoginDto) (tenantId : Option String) (u : AuthUser) : Bool :=
  u.email == dto.email && u.isActive &&
  (match tenantId with
   | some tid => u.tenantId == some tid
   | none => true)

/-- The final tenant-active check of `AuthService.login`:
`user.tenantId && user.tenant && !user.tenant.isActive`. -/
def loginTenantInactive (db : AuthDb) (user : AuthUser) : Bool :=
  match user.tenantId with
  | some utid =>
    match db.tenants.find? (fun t => t.id == utid) with
    | some ut => !ut.isActive
    | none => false
  | none => false

/-- The tail of `AuthService.login` after the tenant hint has been
resolved: user lookup, password check, final tenant-active check, token
issue and refresh-token rotation. -/
def loginLookup (db : AuthDb) (now accessLifetime refreshLifetime : Nat)
    (dto : LoginDto) (tenantId : Option String) :
    Except AuthError (AuthDb × AuthTokens) :=
  match db.users.find? (loginUserPred dto tenantId) with
  | none => .error (.unauthorized "Invalid credentials")
  | some user =>
    if bcryptCompare dto.password user.password = false then
      .error (.unauthorized "Invalid credentials")
    else if loginTenantInactive db user then
      .error (.unauthorized "Tenant is not active")
    else
      .ok (storeRefresh db user.id
             (jwtSign ⟨user.id, user.email, user.roleId, user.tenantId⟩ now refreshLifetime)
             (now + sevenDaysMs),
           ⟨jwtSign ⟨user.id, user.email, user.roleId, user.tenantId⟩ now accessLifetime,
            jwtSign ⟨user.id, user.email, user.roleId, user.tenantId⟩ now refreshLifetime⟩)

/-- `AuthService.login` (tenant-aware variant). -/
def login (db : AuthDb) (now accessLifetime refreshLifetime : Nat)
    (dto : LoginDto) : Except AuthError (AuthDb × AuthTokens) :=
  match (match jsTruthy dto.tenant with
         | none => Except.ok (none : Option String)
         | some hint =>
           match loginResolveHint db hint with
           | .error e => .error e
           | .ok t => .ok (some t.id)) with
  | .error e => .error e
  | .ok tenantId => loginLookup db now accessLifetime refreshLifetime dto tenantId

/-- `AuthService.refreshToken` (tenant-aware variant).  Every failure is
funnelled through the surrounding `catch` into the single
`Invalid refresh token` error. -/
def refreshTokenOp (db : AuthDb) (now accessLifetime refreshLifetime : Nat)
    (tok : Jwt) : Except AuthError (AuthDb × AuthTokens) :=
  match jwtVerify tok now with
  | none => .error (.unauthorized "Invalid refresh token")
  | some payload =>
    match db.users.find? (fun u => u.id == payload.sub) with
    | none => .error (.unauthorized "Invalid refresh token")
    | some user =>
      if user.isActive = false then
        .error (.unauthorized "Invalid refresh token")
      else if (user.refreshToken == some tok) = false then
        .error (.unauthorized "Invalid refresh token")
      else
        match user.refreshTokenExpiresAt with
        | none => .error (.unauthorized "Invalid refresh token")
        | some expAt =>
          if expAt < now then
            .error (.unauthorized "Invalid refresh token")
          else
            .ok (storeRefresh db user.id
                   (jwtSign ⟨user.id, user.email, user.roleId, user.tenantId⟩ now refreshLifetime)
                   (now + sevenDaysMs),
                 ⟨jwtSign ⟨user.id, user.email, user.roleId, user.tenantId⟩ now accessLifetime,
                  jwtSign ⟨user.id, user.email, user.roleId, user.tenantId⟩ now refreshLifetime⟩)

/-! ## Tenant context middleware

From the tenant context middleware (`TenantContextMiddleware`).  The four
resolution sources run in order; sources that catch their own lookup
failures return `none` (silent fallthrough), while a truthy explicit
header or query value that fails to resolve escalates to a
`BadRequest`. -/

structure TenantContext where
  id : String
  name : String
  subdomain : String
  slug : String
  isActive : Bool
deriving DecidableEq

structure MwRequest where
  path : String
  host : Option String
  headerTenantId : Option String
  headerTenantSubdomain : Option String
  userTenantId : Option String
  queryTenant : Option String
deriving DecidableEq

inductive MwError
  | badRequest (msg : String)
  | notFound (msg : String)
deriving DecidableEq

def toCtx (t : ATenant) : TenantContext :=
  ⟨t.id, t.name, t.subdomain, t.slug, t.isActive⟩

def skipPathsList : List String :=
  ["/health", "/api/health", "/api/auth/login", "/api/auth/register",
   "/api/tenants", "/docs", "/api-docs"]

def shouldSkipTenantResolution (path : String) : Bool :=
  skipPathsList.any (fun sp => jsStartsWith path sp)

/-- Id-or-subdomain disambiguation shared by the header and query sources
(`startsWith('c') && length > 20` selects lookup by id). -/
def resolveTenantRef (tenants : List ATenant) (v : String) : Except AuthError ATenant :=
  if jsStartsWith v "c" && decide (v.length > 20) then tenantsFindOne tenants v
  else tenantsFindBySubdomain tenants v

/-- `extractTenantFromSubdomain`: parses the leftmost host label, skips
`www` and the reserved list, and swallows every lookup failure. -/
def extractTenantFromSubdomain (tenants : List ATenant) (req : MwRequest) :
    Option TenantContext :=
  match jsTruthy req.host with
  | none => none
  | some host =>
    match host.splitOn "." with
    | [] => none
    | sub :: restParts =>
      if restParts.isEmpty || sub == "www" then none
      else if ["api", "admin", "app"].contains sub then none
      else
        match tenantsFindBySubdomain tenants sub with
        | .ok t => some (toCtx t)
        | .error _ => none

/-- `extractTenantFromHeader`: `X-Tenant-ID || X-Tenant-Subdomain`; absent
(or empty) headers fall through with `none`, while a truthy value that
fails to resolve becomes a hard `BadRequest`. -/
def extractTenantFromHeader (tenants : List ATenant) (req : MwRequest) :
    Except MwError (Option TenantContext) :=
  match jsOr req.headerTenantId req.headerTenantSubdomain with
  | none => .ok none
  | some h =>
    match resolveTenantRef tenants h with
    | .ok t => .ok (some (toCtx t))
    | .error _ => .error (.badRequest "Invalid tenant specified in header")

/-- `extractTenantFromToken`: the verified session claim; swallows lookup
failures. -/
def extractTenantFromToken (tenants : List ATenant) (req : MwRequest) :
    Option TenantContext :=
  match jsTruthy req.userTenantId with
  | none => none
  | some tid =>
    match tenantsFindOne tenants tid with
    | .ok t => some (toCtx t)
    | .error _ => none

/-- `extractTenantFromQuery`: like the header source, but read from the
`tenant` query parameter. -/
def extractTenantFromQuery (tenants : List ATenant) (req : MwRequest) :
    Except MwError (Option TenantContext) :=
  match jsTruthy req.queryTenant with
  | none => .ok none
  | some q =>
    match resolveTenantRef tenants q with
    | .ok t => .ok (some (toCtx t))
    | .error _ => .error (.badRequest "Invalid tenant specified in query parameter")

/-- `TenantContextMiddleware.use`: skip list, then the four sources in
order, with the query source gated on `NODE_ENV !== 'production'`.  The
result is the tenant context attached to the request (or none). -/
def mwUse (tenants : List ATenant) (env : String) (req : MwRequest) :
    Except MwError (Option TenantContext) :=
  if shouldSkipTenantResolution req.path then .ok none
  else
    match extractTenantFromSubdomain tenants req with
    | some t => .ok (some t)
    | none =>
      match extractTenantFromHeader tenants req with
      | .error e => .error e
      | .ok (some t) => .ok (some t)
      | .ok none =>
        match extractTenantFromToken tenants req with
        | some t => .ok (some t)
        | none =>
          if env != "production" then extractTenantFromQuery tenants req
          else .ok none

/-! ## Theorems -/

/-- C2: for every pair of appointment statuses with the source in
completed/cancelled/no_show and the target in
scheduled/confirmed/in_progress, `Appointment.updateStatus` raises the
error naming the attempted pair and leaves the status unchanged (the
`.error` result models the throw before any assignment); every other
pair, including same-state no-ops, is accepted and the status becomes the
requested value. -/
theorem entity_updateStatus_denylist :
    ∀ f t : ApptStatus,
    (isAbsorbing f = true → isEarlier t = true →
      Appt.updateStatus f.str t.str =
        .error ("Cannot change status from " ++ f.str ++ " to " ++ t.str)) ∧
    (¬(isAbsorbing f = true ∧ isEarlier t = true) →
      Appt.updateStatus f.str t.str = .ok t.str) := by
  decide

/-- Witness for C2 at the pair (completed, scheduled) and at the accepted
no-op pair (completed, completed). -/
theorem entity_updateStatus_denylist_w :
    Appt.updateStatus ApptStatus.completed.str ApptStatus.scheduled.str =
      .error ("Cannot change status from " ++ ApptStatus.completed.str ++ " to "
        ++ ApptStatus.scheduled.str) ∧
    Appt.updateStatus ApptStatus.completed.str ApptStatus.completed.str =
      .ok ApptStatus.completed.str :=
  ⟨(entity_updateStatus_denylist .completed .scheduled).1 (by decide) (by decide),
   (entity_updateStatus_denylist .completed .completed).2 (by decide)⟩

/-- C1 counterexample: the claim that every status-mutating service
operation preserves the no-illegal-transition invariant is false.
`AppointmentsService.update` given a status field performs no transition
validation: on a stored `cancelled` appointment it happily writes
`scheduled`, an illegal transition.  Independently,
`AppointmentsService.updateStatus` with the hyphen-spelled target
`in-progress` slips past the underscore-keyed deny-list and moves a
`completed` appointment to `in_progress`. -/
theorem svc_update_breaks_transition_invariant :
    "cancelled" ∈ absorbingIds ∧ "scheduled" ∈ earlierIds ∧
    svcUpdate 0 ⟨"cancelled", some "cancelled"⟩ none (some "scheduled") = .ok "scheduled" ∧
    "completed" ∈ absorbingIds ∧ "in_progress" ∈ earlierIds ∧
    svcUpdateStatus ⟨"completed", some "completed"⟩ SvcStatus.inProgress = .ok "in_progress" := by
  decide

/-- C1 amended: `cancel` and `remove` only ever write `cancelled` (never
an earlier status); `updateStatus` rejects moving an absorbing appointment
to `scheduled` or `confirmed`; and `update` rejects every change to a
`completed` appointment.  (The remaining combinations are exactly the
violations exhibited by the counterexample.) -/
theorem svc_status_mutations_amended :
    ∀ (row : ApptRow) (st : SvcStatus) (now : Nat) (dtoDate : Option Nat)
      (dtoStatus : Option String),
    (∀ s, svcCancel row = .ok s → s = "cancelled") ∧
    (∀ s, svcRemove row = .ok s → s = "cancelled") ∧
    (row.statusName = some row.statusId → row.statusId ∈ absorbingIds →
      st = SvcStatus.scheduled ∨ st = SvcStatus.confirmed →
      svcUpdateStatus row st =
        .error (.badRequest ("Cannot change status from " ++ row.statusId ++ " to " ++ st.arg))) ∧
    (row.statusName = some "completed" →
      ∀ s, svcUpdate now row dtoDate dtoStatus ≠ .ok s) := by
  intro row st now dtoDate dtoStatus
  refine ⟨?_, ?_, ?_, ?_⟩
  · intro s h
    unfold svcCancel at h
    split at h
    · exact absurd h (by simp)
    · exact (Except.ok.inj h).symm
  · intro s h
    exact (Except.ok.inj h).symm
  · intro hname habs hst
    simp only [absorbingIds, List.mem_cons, List.not_mem_nil, or_false] at habs
    have hne : row.statusId.isEmpty = false := by
      rcases habs with h2 | h2 | h2 <;> rw [h2] <;> decide
    have hcur : apptStatusOf row = row.statusId := by
      simp [apptStatusOf, hname, hne]
    unfold svcUpdateStatus
    rw [hcur]
    rcases hst with h | h <;> subst h <;> rcases habs with h2 | h2 | h2 <;> rw [h2] <;> decide
  · intro hname s h
    simp [svcUpdate, hname] at h

/-- Witness for C1 amended: a completed row cannot be moved back to
scheduled through `updateStatus`, and cannot be touched through
`update`. -/
theorem svc_status_mutations_amended_w :
    svcUpdateStatus ⟨"completed", some "completed"⟩ SvcStatus.scheduled =
      .error (.badRequest ("Cannot change status from " ++ "completed" ++ " to "
        ++ SvcStatus.scheduled.arg)) ∧
    ∀ s, svcUpdate 7 ⟨"completed", some "completed"⟩ none none ≠ .ok s :=
  ⟨(svc_status_mutations_amended ⟨"completed", some "completed"⟩ .scheduled 7 none none).2.2.1
      rfl (by decide) (Or.inl rfl),
   (svc_status_mutations_amended ⟨"completed", some "completed"⟩ .scheduled 7 none none).2.2.2
      rfl⟩

/-- Auxiliary: replacing the first occurrence of a pattern in `base ++ pat`
removes the trailing copy when the leading pattern character never occurs
in `base`. -/
theorem replaceFirstL_append_notMem (c0 : Char) (pat' base : List Char)
    (h : c0 ∉ base) :
    replaceFirstL (c0 :: pat') [] (base ++ (c0 :: pat')) = base := by
  induction base with
  | nil =>
    simp only [List.nil_append, replaceFirstL]
    rw [if_pos]
    · simp
    · exact List.isPrefixOf_iff_prefix.mpr (List.prefix_refl _)
  | cons b bs ih =>
    have hne : (c0 == b) = false := by
      have hb : c0 ≠ b := fun he => h (he ▸ List.mem_cons_self b bs)
      simpa using hb
    have h' : c0 ∉ bs := fun hm => h (List.mem_cons_of_mem _ hm)
    simp [replaceFirstL, List.isPrefixOf, hne, ih h']

/-- Auxiliary: stripping `:own` from `base ++ ":own"` yields `base` when
`base` contains no colon. -/
theorem jsReplaceFirst_own (base : String) (h : (':') ∉ base.data) :
    jsReplaceFirst (base ++ ":own") ":own" "" = base := by
  apply String.ext
  show replaceFirstL (":own").data [] (base ++ ":own").data = base.data
  rw [String.data_append]
  exact replaceFirstL_append_notMem ':' ['o', 'w', 'n'] base.data h

/-- Auxiliary: `base ++ ":own"` ends with `:own`. -/
theorem jsEndsWith_append_own (base : String) :
    jsEndsWith (base ++ ":own") ":own" = true := by
  simp [jsEndsWith, String.data_append]

/-- Auxiliary: a colon-free string does not end with `:own`. -/
theorem jsEndsWith_own_false (base : String) (h : (':') ∉ base.data) :
    jsEndsWith base ":own" = false := by
  refine Bool.eq_false_iff.mpr fun hs => ?_
  exact h ((List.isSuffixOf_iff_suffix.mp hs).subset (by decide))

/-- C6: for a user whose role assignments contain the sentinel name
`system.admin`, `getUserPermissions` returns exactly the names of every
active permission in the catalog, and `hasPermission` is true for every
active catalog permission. -/
theorem perm_system_admin_full_catalog (env : PermsEnv) (u : PUser)
    (hu : env.user? = some u)
    (hadmin : "system.admin" ∈ u.role.permissions.map (fun rp => rp.permission.name)) :
    getUserPermissions env = activeCatalogNames env ∧
    ∀ p ∈ env.catalog, p.isActive = true → hasPermission env p.name = true := by
  have hfull : getUserPermissions env = activeCatalogNames env := by
    simp [getUserPermissions, hu, List.elem_eq_mem, hadmin]
  refine ⟨hfull, ?_⟩
  intro p hp hact
  have hmem : p.name ∈ getUserPermissions env := by
    rw [hfull]
    simp only [activeCatalogNames, List.mem_map]
    exact ⟨p, List.mem_filter.mpr ⟨hp, by simp [hact]⟩, rfl⟩
  simp [hasPermission, List.elem_eq_mem, hmem]

/-- Witness for C6: a concrete catalog and a role holding only
`system.admin`. -/
theorem perm_system_admin_full_catalog_w :
    getUserPermissions
      ⟨some ⟨⟨[⟨⟨"system.admin", true⟩⟩]⟩⟩,
        [⟨"patients.read", true⟩, ⟨"patients.write", false⟩, ⟨"system.admin", true⟩]⟩ =
      activeCatalogNames
        ⟨some ⟨⟨[⟨⟨"system.admin", true⟩⟩]⟩⟩,
          [⟨"patients.read", true⟩, ⟨"patients.write", false⟩, ⟨"system.admin", true⟩]⟩ ∧
    hasPermission
      ⟨some ⟨⟨[⟨⟨"system.admin", true⟩⟩]⟩⟩,
        [⟨"patients.read", true⟩, ⟨"patients.write", false⟩, ⟨"system.admin", true⟩]⟩
      "patients.read" = true :=
  ⟨(perm_system_admin_full_catalog _ _ rfl (by decide)).1,
   (perm_system_admin_full_catalog _ _ rfl (by decide)).2 ⟨"patients.read", true⟩
      (by decide) rfl⟩

/-- C7: the `:own` scoping rule is a one-way implication.  For a colon-free
permission name `base`: holding `base` satisfies a check for `base:own`,
while holding only `base:own` (without `base` and without `system.admin`)
never satisfies a check for `base`. -/
theorem perm_own_scoping_one_way (env : PermsEnv) (base : String)
    (hcolon : (':') ∉ base.data) :
    (base ∈ getUserPermissions env → hasPermission env (base ++ ":own") = true) ∧
    ((base ++ ":own") ∈ getUserPermissions env →
      base ∉ getUserPermissions env →
      "system.admin" ∉ getUserPermissions env →
      hasPermission env base = false) := by
  constructor
  · intro hmem
    by_cases h1 : (base ++ ":own") ∈ getUserPermissions env
    · simp [hasPermission, List.elem_eq_mem, h1]
    · by_cases h2 : "system.admin" ∈ getUserPermissions env
      · simp [hasPermission, List.elem_eq_mem, h1, h2]
      · simp [hasPermission, List.elem_eq_mem, h1, h2, jsEndsWith_append_own,
          jsReplaceFirst_own base hcolon, hmem]
  · intro _ h1 h2
    simp [hasPermission, List.elem_eq_mem, h1, h2, jsEndsWith_own_false base hcolon]

/-- Witness for C7 at the scenario from the specification: a role holding
`appointments.read` satisfies `appointments.read:own`; a role holding only
`appointments.read:own` does not satisfy `appointments.read`. -/
theorem perm_own_scoping_one_way_w :
    hasPermission ⟨some ⟨⟨[⟨⟨"appointments.read", true⟩⟩]⟩⟩, []⟩
      ("appointments.read" ++ ":own") = true ∧
    hasPermission ⟨some ⟨⟨[⟨⟨"appointments.read:own", true⟩⟩]⟩⟩, []⟩
      "appointments.read" = false :=
  ⟨(perm_own_scoping_one_way ⟨some ⟨⟨[⟨⟨"appointments.read", true⟩⟩]⟩⟩, []⟩
      "appointments.read" (by decide)).1 (by decide),
   (perm_own_scoping_one_way ⟨some ⟨⟨[⟨⟨"appointments.read:own", true⟩⟩]⟩⟩, []⟩
      "appointments.read" (by decide)).2 (by decide) (by decide) (by decide)⟩

/-- C10: the `system.admin` shortcut fires on the RAW assignment names,
before any active filtering, so the effective set is the full active
catalog even when every catalog entry and assignment named `system.admin`
has its active flag false. -/
theorem perm_system_admin_shortcut_ignores_active (env : PermsEnv) (u : PUser)
    (hu : env.user? = some u)
    (hadmin : "system.admin" ∈ u.role.permissions.map (fun rp => rp.permission.name))
    (_hcat : ∀ p ∈ env.catalog, p.name = "system.admin" → p.isActive = false)
    (_hassign : ∀ rp ∈ u.role.permissions,
      rp.permission.name = "system.admin" → rp.permission.isActive = false) :
    getUserPermissions env = activeCatalogNames env ∧
    ∀ p ∈ env.catalog, p.isActive = true → hasPermission env p.name = true := by
  have hfull : getUserPermissions env = activeCatalogNames env := by
    simp [getUserPermissions, hu, List.elem_eq_mem, hadmin]
  refine ⟨hfull, ?_⟩
  intro p hp hact
  have hmem : p.name ∈ getUserPermissions env := by
    rw [hfull]
    simp only [activeCatalogNames, List.mem_map]
    exact ⟨p, List.mem_filter.mpr ⟨hp, by simp [hact]⟩, rfl⟩
  simp [hasPermission, List.elem_eq_mem, hmem]

/-- Witness for C10: the `system.admin` catalog entry and its assignment are
both inactive, yet the effective set is the full active catalog. -/
theorem perm_system_admin_shortcut_ignores_active_w :
    getUserPermissions
      ⟨some ⟨⟨[⟨⟨"system.admin", false⟩⟩]⟩⟩,
        [⟨"patients.read", true⟩, ⟨"system.admin", false⟩]⟩ =
      activeCatalogNames
        ⟨some ⟨⟨[⟨⟨"system.admin", false⟩⟩]⟩⟩,
          [⟨"patients.read", true⟩, ⟨"system.admin", false⟩]⟩ ∧
    hasPermission
      ⟨some ⟨⟨[⟨⟨"system.admin", false⟩⟩]⟩⟩,
        [⟨"patients.read", true⟩, ⟨"system.admin", false⟩]⟩ "patients.read" = true :=
  ⟨(perm_system_admin_shortcut_ignores_active _ _ rfl (by decide) (by decide) (by decide)).1,
   (perm_system_admin_shortcut_ignores_active _ _ rfl (by decide) (by decide) (by decide)).2
      ⟨"patients.read", true⟩ (by decide) rfl⟩

/-- Auxiliary: under a duplicate-free role-assignment list (the database
join table has one row per role and flag), the first-match lookup used by
`isFeatureFlagEnabled` agrees with existence of an enabled assignment. -/
theorem roleFlagLookup_iff (l : List RoleFlag) (rid : String)
    (h : (l.map (fun rf => rf.roleId)).Nodup) :
    roleFlagLookup l rid = true ↔ ∃ rf ∈ l, rf.roleId = rid ∧ rf.isEnabled = true := by
  induction l with
  | nil => simp [roleFlagLookup]
  | cons rf l' ih =>
    rw [List.map_cons, List.nodup_cons] at h
    have ih' := ih h.2
    by_cases hr : rf.roleId = rid
    · have hp : (rf.roleId == rid) = true := by simp [hr]
      have hnot : ∀ x ∈ l', ¬(x.roleId = rid) := by
        intro x hx hxr
        exact h.1 (List.mem_map.mpr ⟨x, hx, by rw [hxr, hr]⟩)
      have hfind : List.find? (fun x => x.roleId == rid)
          (rf :: List.filter (fun x => x.roleId == rid) l') = some rf := by
        simp [List.find?, hp]
      have hL : roleFlagLookup (rf :: l') rid = rf.isEnabled := by
        unfold roleFlagLookup
        rw [List.filter_cons, if_pos hp, hfind]
      rw [hL]
      constructor
      · intro hE
        exact ⟨rf, List.mem_cons_self _ _, hr, hE⟩
      · rintro ⟨x, hx, hxr, hxe⟩
        rcases List.mem_cons.mp hx with he | hx'
        · rw [he] at hxe
          exact hxe
        · exact absurd hxr (hnot x hx')
    · have hp : (rf.roleId == rid) = false := by simp [hr]
      have hL : roleFlagLookup (rf :: l') rid = roleFlagLookup l' rid := by
        unfold roleFlagLookup
        rw [List.filter_cons, if_neg (by simp [hp])]
      rw [hL, ih']
      constructor
      · rintro ⟨x, hx, hxr⟩
        exact ⟨x, List.mem_cons_of_mem _ hx, hxr⟩
      · rintro ⟨x, hx, hxr, hxe⟩
        rcases List.mem_cons.mp hx with he | hx'
        · rw [he] at hxr
          exact absurd hxr hr
        · exact ⟨x, hx', hxr, hxe⟩

/-- C9: `isFeatureFlagEnabled` returns true for an active global flag
regardless of the supplied role id; for an active non-global flag it is
true exactly when a role id is supplied and that role has an enabled
assignment; in every other case (flag absent, flag inactive, no role id,
or no enabled assignment) it is false.  The hypothesis states the
database uniqueness of the role-flag join rows for the looked-up flag. -/
theorem feature_flag_enabled_iff (registry : List FeatureFlag) (key : String)
    (roleId : Option String)
    (hnd : ∀ f, registry.find? (fun g => g.key == key) = some f →
      (f.roleFlags.map (fun rf => rf.roleId)).Nodup) :
    isFeatureFlagEnabled registry key roleId = true ↔
    ∃ f, registry.find? (fun g => g.key == key) = some f ∧ f.isActive = true ∧
      (f.isGlobal = true ∨
       ∃ rid, roleId = some rid ∧ ∃ rf ∈ f.roleFlags, rf.roleId = rid ∧ rf.isEnabled = true) := by
  unfold isFeatureFlagEnabled
  cases hfind : registry.find? (fun g => g.key == key) with
  | none => simp
  | some f =>
    have hnodup := hnd f hfind
    simp only [Option.some.injEq]
    by_cases hact : f.isActive
    · rw [if_neg (by simp [hact])]
      by_cases hglob : f.isGlobal
      · simp [hglob, hact]
      · rw [if_neg hglob]
        cases roleId with
        | none =>
          simp only [Bool.false_eq_true, false_iff]
          rintro ⟨g, rfl, -, hcase⟩
          rcases hcase with hg | ⟨rid, hrid, -⟩
          · exact hglob hg
          · exact Option.noConfusion hrid
        | some rid =>
          rw [roleFlagLookup_iff f.roleFlags rid hnodup]
          constructor
          · intro hE
            exact ⟨f, rfl, hact, Or.inr ⟨rid, rfl, hE⟩⟩
          · rintro ⟨g, rfl, -, hcase⟩
            rcases hcase with hg | ⟨rid', hrid, hE⟩
            · exact absurd hg hglob
            · rw [Option.some.injEq] at hrid
              rw [hrid]
              exact hE
    · rw [if_pos (by simp [hact])]
      simp only [Bool.false_eq_true, false_iff]
      rintro ⟨g, rfl, hga, -⟩
      exact hact hga

/-- Witness for C9 at the scenario from the specification: the non-global
flag `advanced_reporting` with an enabled assignment for role `admin`
only. -/
theorem feature_flag_enabled_iff_w :
    isFeatureFlagEnabled [⟨"advanced_reporting", true, false, [⟨"admin", true⟩]⟩]
      "advanced_reporting" (some "admin") = true ∧
    isFeatureFlagEnabled [⟨"advanced_reporting", true, false, [⟨"admin", true⟩]⟩]
      "advanced_reporting" (some "customer") = false ∧
    isFeatureFlagEnabled [⟨"advanced_reporting", true, false, [⟨"admin", true⟩]⟩]
      "advanced_reporting" none = false :=
  ⟨(feature_flag_enabled_iff [⟨"advanced_reporting", true, false, [⟨"admin", true⟩]⟩]
      "advanced_reporting" (some "admin") (by decide)).mpr
      ⟨⟨"advanced_reporting", true, false, [⟨"admin", true⟩]⟩, by decide, rfl,
        Or.inr ⟨"admin", rfl, ⟨"admin", true⟩, by decide, rfl, rfl⟩⟩,
   by decide, by decide⟩

/-- C8: a present tenant header whose truthy value fails to resolve makes
the middleware fail hard with the header `BadRequest`, while an absent (or
empty) header makes the header source yield no signal, so resolution falls
through to the verified session claim and then, only outside production,
to the `tenant` query parameter. -/
theorem tenant_header_hard_failure_vs_fallthrough (tenants : List ATenant)
    (env : String) (req : MwRequest) :
    (∀ h, jsOr req.headerTenantId req.headerTenantSubdomain = some h →
      (∃ e, resolveTenantRef tenants h = .error e) →
      shouldSkipTenantResolution req.path = false →
      extractTenantFromSubdomain tenants req = none →
      mwUse tenants env req = .error (.badRequest "Invalid tenant specified in header")) ∧
    (jsOr req.headerTenantId req.headerTenantSubdomain = none →
      extractTenantFromHeader tenants req = .ok none ∧
      (shouldSkipTenantResolution req.path = false →
       extractTenantFromSubdomain tenants req = none →
       mwUse tenants env req =
         match extractTenantFromToken tenants req with
         | some t => .ok (some t)
         | none =>
           if env != "production" then extractTenantFromQuery tenants req
           else .ok none)) := by
  constructor
  · rintro h hh ⟨e, he⟩ hskip hsub
    have hhdr : extractTenantFromHeader tenants req =
        .error (.badRequest "Invalid tenant specified in header") := by
      simp [extractTenantFromHeader, hh, he]
    unfold mwUse
    simp [hskip, hsub, hhdr]
  · intro hn
    have hhdr : extractTenantFromHeader tenants req = .ok none := by
      unfold extractTenantFromHeader
      rw [hn]
    refine ⟨hhdr, ?_⟩
    intro hskip hsub
    unfold mwUse
    simp [hskip, hsub, hhdr]

/-- Witness for C8: an unresolvable `X-Tenant-ID` header on a non-skipped
path is a hard `BadRequest`, and with no header the header source yields
no signal. -/
theorem tenant_header_hard_failure_vs_fallthrough_w :
    mwUse [] "development" ⟨"/api/patients", none, some "acme", none, none, none⟩ =
      .error (.badRequest "Invalid tenant specified in header") ∧
    extractTenantFromHeader []
      ⟨"/api/patients", none, none, none, none, none⟩ = .ok none :=
  ⟨(tenant_header_hard_failure_vs_fallthrough [] "development"
      ⟨"/api/patients", none, some "acme", none, none, none⟩).1 "acme" rfl
      ⟨.notFound "Tenant not found", by decide⟩ (by decide) rfl,
   ((tenant_header_hard_failure_vs_fallthrough [] "development"
      ⟨"/api/patients", none, none, none, none, none⟩).2 rfl).1⟩

/-- Auxiliary: a verified token yields its own payload and is unexpired. -/
theorem jwtVerify_some (t : Jwt) (now : Nat) (p : JwtPayload)
    (h : jwtVerify t now = some p) : p = t.payload ∧ now < t.exp := by
  unfold jwtVerify at h
  split at h
  · exact ⟨(Option.some.inj h).symm, by assumption⟩
  · exact Option.noConfusion h

/-- C3 counterexample: a login attempt that fails because the resolved
tenant is inactive raises `Tenant is not active`, not the generic
`Invalid credentials` error: the user exists and the password hash
matches, yet the message names the tenant condition. -/
theorem login_reveals_tenant_state :
    login
      ⟨[⟨"u0", "a@x.com", "Ann", bcryptHash "pw", "admin", some "t1", true, none, none⟩],
        [⟨"t1", "Acme", "acme", "acme", false⟩], ["admin"]⟩
      0 10 20 ⟨"a@x.com", "pw", none⟩ =
      .error (.unauthorized "Tenant is not active") ∧
    AuthError.unauthorized "Tenant is not active" ≠
      AuthError.unauthorized "Invalid credentials" := by
  decide

/-- C3 amended: for every login attempt, with or without a tenant hint,
an empty user lookup and a mismatched password both raise the generic
`Invalid credentials` error; but an inactive tenant is reported
distinctly rather than generically: `Tenant is not active` when the
matched user's own tenant record is inactive, and `Invalid tenant` when
a supplied tenant hint fails to resolve or resolves to an inactive
tenant.  The first three parts cover the lookup stage under every
resolved tenant scope, the next three tie `login` to that stage for the
hint-free and hint-supplied cases, and the last three settle the hint
resolution itself. -/
theorem login_error_messages (db : AuthDb) (now al rl : Nat) (dto : LoginDto) :
    (∀ tid, db.users.find? (loginUserPred dto tid) = none →
      loginLookup db now al rl dto tid = .error (.unauthorized "Invalid credentials")) ∧
    (∀ tid u, db.users.find? (loginUserPred dto tid) = some u →
      bcryptCompare dto.password u.password = false →
      loginLookup db now al rl dto tid = .error (.unauthorized "Invalid credentials")) ∧
    (∀ tid u utid t, db.users.find? (loginUserPred dto tid) = some u →
      bcryptCompare dto.password u.password = true →
      u.tenantId = some utid →
      db.tenants.find? (fun x => x.id == utid) = some t →
      t.isActive = false →
      loginLookup db now al rl dto tid = .error (.unauthorized "Tenant is not active")) ∧
    (jsTruthy dto.tenant = none →
      login db now al rl dto = loginLookup db now al rl dto none) ∧
    (∀ hint t, jsTruthy dto.tenant = some hint →
      loginResolveHint db hint = .ok t →
      login db now al rl dto = loginLookup db now al rl dto (some t.id)) ∧
    (∀ hint e, jsTruthy dto.tenant = some hint →
      loginResolveHint db hint = .error e →
      login db now al rl dto = .error (.unauthorized "Invalid tenant")) ∧
    (∀ hint e, loginResolveHint db hint = .error e →
      e = .unauthorized "Invalid tenant") ∧
    (∀ hint e0, loginHintLookup db hint = .error e0 →
      loginResolveHint db hint = .error (.unauthorized "Invalid tenant")) ∧
    (∀ hint t, loginHintLookup db hint = .ok t → t.isActive = false →
      loginResolveHint db hint = .error (.unauthorized "Invalid tenant")) := by
  have hres : ∀ hint e, loginResolveHint db hint = .error e →
      e = .unauthorized "Invalid tenant" := by
    intro hint e hr
    unfold loginResolveHint at hr
    cases hl : loginHintLookup db hint with
    | error e2 =>
      rw [hl] at hr
      exact (Except.error.inj hr).symm
    | ok t =>
      rw [hl] at hr
      by_cases hia : t.isActive = false
      · have hv : (match (Except.ok t : Except AuthError ATenant) with
            | Except.error e2 =>
              (Except.error (AuthError.unauthorized "Invalid tenant") :
                Except AuthError ATenant)
            | Except.ok t =>
              if t.isActive = false then
                Except.error (AuthError.unauthorized "Invalid tenant")
              else Except.ok t) =
            Except.error (AuthError.unauthorized "Invalid tenant") := by
          show (if t.isActive = false then
              Except.error (AuthError.unauthorized "Invalid tenant")
            else Except.ok t) = Except.error (AuthError.unauthorized "Invalid tenant")
          rw [if_pos hia]
        rw [hv] at hr
        exact (Except.error.inj hr).symm
      · have hv : (match (Except.ok t : Except AuthError ATenant) with
            | Except.error e2 =>
              (Except.error (AuthError.unauthorized "Invalid tenant") :
                Except AuthError ATenant)
            | Except.ok t =>
              if t.isActive = false then
                Except.error (AuthError.unauthorized "Invalid tenant")
              else Except.ok t) = Except.ok t := by
          show (if t.isActive = false then
              Except.error (AuthError.unauthorized "Invalid tenant")
            else Except.ok t) = Except.ok t
          rw [if_neg hia]
        rw [hv] at hr
        exact absurd hr (by simp)
  refine ⟨?_, ?_, ?_, ?_, ?_, ?_, hres, ?_, ?_⟩
  · intro tid hf
    unfold loginLookup
    simp only [hf]
  · intro tid u hf hcmp
    unfold loginLookup
    simp [hf, hcmp]
  · intro tid u utid t hf hcmp hut hft hact
    unfold loginLookup
    simp [loginTenantInactive, hf, hcmp, hut, hft, hact]
  · intro h0
    unfold login
    rw [h0]
  · intro hint t hh hr
    unfold login
    rw [hh]
    show (match (match loginResolveHint db hint with
          | Except.error e => Except.error e
          | Except.ok t => Except.ok (some t.id)) with
        | Except.error e => Except.error e
        | Except.ok tenantId => loginLookup db now al rl dto tenantId) =
      loginLookup db now al rl dto (some t.id)
    rw [hr]
  · intro hint e hh hr
    unfold login
    rw [hh]
    show (match (match loginResolveHint db hint with
          | Except.error e => Except.error e
          | Except.ok t => Except.ok (some t.id)) with
        | Except.error e => Except.error e
        | Except.ok tenantId => loginLookup db now al rl dto tenantId) =
      Except.error (AuthError.unauthorized "Invalid tenant")
    rw [hr, hres hint e hr]
  · intro hint e0 hl
    unfold loginResolveHint
    rw [hl]
  · intro hint t hl hia
    unfold loginResolveHint
    rw [hl]
    show (if t.isActive = false then
        Except.error (AuthError.unauthorized "Invalid tenant")
      else Except.ok t) = Except.error (AuthError.unauthorized "Invalid tenant")
    rw [if_pos hia]

/-- Witness for C3 amended, at a store holding one active user of an
inactive tenant: an absent-user and a wrong-password attempt are generic,
the hint-free login of that user reveals `Tenant is not active`, and a
login hinting at the inactive tenant by subdomain reveals
`Invalid tenant`. -/
theorem login_error_messages_w :
    loginLookup
      ⟨[⟨"u0", "b@x.com", "Bea", bcryptHash "pw", "admin", some "t9", true, none, none⟩],
        [⟨"t9", "Nine", "nine", "nine", false⟩], ["admin"]⟩
      3 10 20 ⟨"nobody@x.com", "pw", none⟩ none =
      .error (.unauthorized "Invalid credentials") ∧
    loginLookup
      ⟨[⟨"u0", "b@x.com", "Bea", bcryptHash "pw", "admin", some "t9", true, none, none⟩],
        [⟨"t9", "Nine", "nine", "nine", false⟩], ["admin"]⟩
      3 10 20 ⟨"b@x.com", "wrong", none⟩ none =
      .error (.unauthorized "Invalid credentials") ∧
    login
      ⟨[⟨"u0", "b@x.com", "Bea", bcryptHash "pw", "admin", some "t9", true, none, none⟩],
        [⟨"t9", "Nine", "nine", "nine", false⟩], ["admin"]⟩
      3 10 20 ⟨"b@x.com", "pw", none⟩ =
      .error (.unauthorized "Tenant is not active") ∧
    login
      ⟨[⟨"u0", "b@x.com", "Bea", bcryptHash "pw", "admin", some "t9", true, none, none⟩],
        [⟨"t9", "Nine", "nine", "nine", false⟩], ["admin"]⟩
      3 10 20 ⟨"b@x.com", "pw", some "nine"⟩ =
      .error (.unauthorized "Invalid tenant") :=
  ⟨(login_error_messages _ 3 10 20 ⟨"nobody@x.com", "pw", none⟩).1 none (by decide),
   (login_error_messages _ 3 10 20 ⟨"b@x.com", "wrong", none⟩).2.1 none
      ⟨"u0", "b@x.com", "Bea", bcryptHash "pw", "admin", some "t9", true, none, none⟩
      (by decide) (by decide),
   ((login_error_messages _ 3 10 20 ⟨"b@x.com", "pw", none⟩).2.2.2.1 rfl).trans
     ((login_error_messages _ 3 10 20 ⟨"b@x.com", "pw", none⟩).2.2.1 none
      ⟨"u0", "b@x.com", "Bea", bcryptHash "pw", "admin", some "t9", true, none, none⟩
      "t9" ⟨"t9", "Nine", "nine", "nine", false⟩
      (by decide) (by decide) rfl (by decide) rfl),
   (login_error_messages _ 3 10 20 ⟨"b@x.com", "pw", some "nine"⟩).2.2.2.2.2.1
      "nine" (.unauthorized "Invalid tenant") (by decide) (by decide)⟩

/-- Auxiliary: overwriting the stored refresh token of the user found by
id lookup updates exactly that user in the stored list. -/
theorem find?_id_storeRefresh (users : List AuthUser) (uid : String)
    (rt : Jwt) (expAt : Nat) (u : AuthUser)
    (h : users.find? (fun v => v.id == uid) = some u) :
    (users.map (refreshUpd uid rt expAt)).find? (fun v => v.id == uid) =
      some { u with refreshToken := some rt, refreshTokenExpiresAt := some expAt } := by
  induction users with
  | nil => simp at h
  | cons a l ih =>
    cases ha : a.id == uid with
    | true =>
      have h1 : (a :: l).find? (fun v => v.id == uid) = some a := by
        simp only [List.find?, ha]
      rw [h1] at h
      have hau : a = u := Option.some.inj h
      subst hau
      rw [List.map_cons]
      have hupd : refreshUpd uid rt expAt a =
          { a with refreshToken := some rt, refreshTokenExpiresAt := some expAt } := by
        unfold refreshUpd
        rw [if_pos ha]
      have hpred : ((refreshUpd uid rt expAt a).id == uid) = true := by
        unfold refreshUpd
        rw [if_pos ha]
        simpa using ha
      simp only [List.find?, hpred, hupd]
      rw [ha]
    | false =>
      have h1 : (a :: l).find? (fun v => v.id == uid) =
          l.find? (fun v => v.id == uid) := by
        simp only [List.find?, ha]
      rw [h1] at h
      rw [List.map_cons]
      have hupd : refreshUpd uid rt expAt a = a := by
        unfold refreshUpd
        rw [if_neg (by simp [ha])]
      rw [hupd]
      have h2 : (a :: l.map (refreshUpd uid rt expAt)).find? (fun v => v.id == uid) =
          (l.map (refreshUpd uid rt expAt)).find? (fun v => v.id == uid) := by
        simp only [List.find?, ha]
      rw [h2, ih h]

/-- C4: `refreshToken` succeeds only when the presented token verifies,
names an active stored user, exactly equals that user's single stored
token, and the stored expiry has not passed; on success the stored token
is overwritten with the newly issued one.  A user whose stored token
differs from the presented one (in particular one superseded by a later
`login` or `refresh`, which both overwrite the stored token with a token
issued at the later time) is rejected; a successful `login` likewise
overwrites the stored token with the fresh one, and a refresh performed
at a time other than the presented token's issue time returns a token
distinct from it. -/
theorem refresh_rotation (db : AuthDb) (now al rl : Nat) (tok : Jwt) :
    (∀ db2 ts, refreshTokenOp db now al rl tok = .ok (db2, ts) →
      ∃ u, db.users.find? (fun v => v.id == tok.payload.sub) = some u ∧
        u.isActive = true ∧
        u.refreshToken = some tok ∧
        (∃ e, u.refreshTokenExpiresAt = some e ∧ ¬ e < now) ∧
        ts.refreshToken = jwtSign ⟨u.id, u.email, u.roleId, u.tenantId⟩ now rl ∧
        db2.users.find? (fun v => v.id == u.id) =
          some { u with refreshToken := some ts.refreshToken,
                        refreshTokenExpiresAt := some (now + sevenDaysMs) }) ∧
    (∀ u, db.users.find? (fun v => v.id == tok.payload.sub) = some u →
      u.refreshToken ≠ some tok →
      refreshTokenOp db now al rl tok = .error (.unauthorized "Invalid refresh token")) ∧
    (∀ db2 ts, refreshTokenOp db now al rl tok = .ok (db2, ts) →
      tok.iat ≠ now → ts.refreshToken ≠ tok) ∧
    (∀ dto db2 ts, login db now al rl dto = .ok (db2, ts) →
      ∃ u ∈ db.users,
        ts.refreshToken = jwtSign ⟨u.id, u.email, u.roleId, u.tenantId⟩ now rl ∧
        db2 = storeRefresh db u.id ts.refreshToken (now + sevenDaysMs)) := by
  have main : ∀ db2 ts, refreshTokenOp db now al rl tok = .ok (db2, ts) →
      ∃ u, db.users.find? (fun v => v.id == tok.payload.sub) = some u ∧
        u.isActive = true ∧
        u.refreshToken = some tok ∧
        (∃ e, u.refreshTokenExpiresAt = some e ∧ ¬ e < now) ∧
        ts.refreshToken = jwtSign ⟨u.id, u.email, u.roleId, u.tenantId⟩ now rl ∧
        db2.users.find? (fun v => v.id == u.id) =
          some { u with refreshToken := some ts.refreshToken,
                        refreshTokenExpiresAt := some (now + sevenDaysMs) } := by
    intro db2 ts h
    unfold refreshTokenOp at h
    split at h
    · exact absurd h (by simp)
    · rename_i payload hv
      obtain ⟨hp, -⟩ := jwtVerify_some tok now payload hv
      subst hp
      split at h
      · exact absurd h (by simp)
      · rename_i user hf
        split at h
        · exact absurd h (by simp)
        · rename_i ha
          split at h
          · exact absurd h (by simp)
          · rename_i hb
            split at h
            · exact absurd h (by simp)
            · rename_i expAt he
              split at h
              · exact absurd h (by simp)
              · rename_i hex
                have hpair := Except.ok.inj h
                rw [Prod.mk.injEq] at hpair
                obtain ⟨hA, hB⟩ := hpair
                have hact : user.isActive = true := by
                  cases hua : user.isActive with
                  | true => rfl
                  | false => exact absurd hua ha
                have hb' : (user.refreshToken == some tok) = true := by
                  cases hx : user.refreshToken == some tok with
                  | true => rfl
                  | false => exact absurd hx hb
                have hstored : user.refreshToken = some tok := eq_of_beq hb'
                have hts2 : ts.refreshToken =
                    jwtSign ⟨user.id, user.email, user.roleId, user.tenantId⟩ now rl := by
                  rw [← hB]
                have hid : user.id = tok.payload.sub := by
                  have hpred := List.find?_some hf
                  simpa using hpred
                have hf2 : db.users.find? (fun v => v.id == user.id) = some user := by
                  rw [hid]
                  exact hf
                refine ⟨user, hf, hact, hstored, ⟨expAt, he, hex⟩, hts2, ?_⟩
                rw [hts2, ← hA]
                exact find?_id_storeRefresh db.users user.id
                  (jwtSign ⟨user.id, user.email, user.roleId, user.tenantId⟩ now rl)
                  (now + sevenDaysMs) user hf2
  refine ⟨main, ?_, ?_, ?_⟩
  · intro u hf hne
    unfold refreshTokenOp
    split
    · rfl
    · rename_i payload hv
      obtain ⟨hp, -⟩ := jwtVerify_some tok now payload hv
      subst hp
      split
      · rfl
      · rename_i user hf'
        have huu : user = u := by
          rw [hf] at hf'
          exact (Option.some.inj hf').symm
        subst huu
        have hb : ((user.refreshToken == some tok) = false) :=
          beq_eq_false_iff_ne.mpr hne
        split
        · rfl
        · simp [hb]
  · intro db2 ts h hiat
    obtain ⟨u, -, -, -, -, hts2, -⟩ := main db2 ts h
    intro heqtok
    apply hiat
    have h1 : jwtSign ⟨u.id, u.email, u.roleId, u.tenantId⟩ now rl = tok := by
      rw [← hts2]
      exact heqtok
    have h2 : now = tok.iat := congrArg Jwt.iat h1
    exact h2.symm
  · intro dto db2 ts h
    have tail : ∀ tid, loginLookup db now al rl dto tid = .ok (db2, ts) →
        ∃ u ∈ db.users,
          ts.refreshToken = jwtSign ⟨u.id, u.email, u.roleId, u.tenantId⟩ now rl ∧
          db2 = storeRefresh db u.id ts.refreshToken (now + sevenDaysMs) := by
      intro tid hh
      unfold loginLookup at hh
      split at hh
      · exact absurd hh (by simp)
      · rename_i user hf
        split at hh
        · exact absurd hh (by simp)
        · split at hh
          · exact absurd hh (by simp)
          · have hpair := Except.ok.inj hh
            rw [Prod.mk.injEq] at hpair
            obtain ⟨hA, hB⟩ := hpair
            have hts2 : ts.refreshToken =
                jwtSign ⟨user.id, user.email, user.roleId, user.tenantId⟩ now rl := by
              rw [← hB]
            refine ⟨user, List.mem_of_find?_eq_some hf, hts2, ?_⟩
            rw [hts2, ← hA]
    unfold login at h
    cases ht : jsTruthy dto.tenant with
    | none =>
      simp only [ht] at h
      exact tail none h
    | some hint =>
      simp only [ht] at h
      cases hres : loginResolveHint db hint with
      | error e =>
        simp only [hres] at h
        exact absurd h (by simp)
      | ok t =>
        simp only [hres] at h
        exact tail (some t.id) h

/-- Witness for C4: a store whose single user holds a fresh token; a
different presented token (superseded) is rejected. -/
theorem refresh_rotation_w :
    refreshTokenOp
      ⟨[⟨"u0", "a@x.com", "Ann", bcryptHash "pw", "admin", none, true,
          some ⟨⟨"u0", "a@x.com", "admin", none⟩, 5, 50⟩, some 100⟩],
        [], ["admin"]⟩
      7 10 20 ⟨⟨"u0", "a@x.com", "admin", none⟩, 1, 40⟩ =
      .error (.unauthorized "Invalid refresh token") :=
  (refresh_rotation
    ⟨[⟨"u0", "a@x.com", "Ann", bcryptHash "pw", "admin", none, true,
        some ⟨⟨"u0", "a@x.com", "admin", none⟩, 5, 50⟩, some 100⟩],
      [], ["admin"]⟩
    7 10 20 ⟨⟨"u0", "a@x.com", "admin", none⟩, 1, 40⟩).2.1
    ⟨"u0", "a@x.com", "Ann", bcryptHash "pw", "admin", none, true,
      some ⟨⟨"u0", "a@x.com", "admin", none⟩, 5, 50⟩, some 100⟩
    (by decide) (by decide)

/-- C5: registration uniqueness is tenant-scoped, not global.  Given an
existing active tenant and role, `register` is rejected with the Conflict
error exactly when some stored user already has the same email AND the
same tenant id (and the error carries no new state, so no user is
created); when no such user exists the registration succeeds and appends
the new user — in particular a user with the same email under a
different tenant does not block it. -/
theorem register_tenant_scoped (db : AuthDb) (now al rl : Nat)
    (dto : RegisterDto) (t : ATenant)
    (ht : db.tenants.find? (fun x => x.id == dto.tenantId) = some t)
    (hact : t.isActive = true)
    (hrole : db.roles.contains dto.roleId = true) :
    ((∃ u ∈ db.users, u.email = dto.email ∧ u.tenantId = some dto.tenantId) →
      register db now al rl dto =
        .error (.conflict "User with this email already exists in this tenant")) ∧
    ((∀ u ∈ db.users, ¬(u.email = dto.email ∧ u.tenantId = some dto.tenantId)) →
      ∃ db2 ts, register db now al rl dto = .ok (db2, ts) ∧
        db2.users = db.users ++
          [⟨freshUserId db, dto.email, dto.name, bcryptHash dto.password, dto.roleId,
            some dto.tenantId, true, some ts.refreshToken, some (now + sevenDaysMs)⟩] ∧
        db2.tenants = db.tenants ∧ db2.roles = db.roles) := by
  have hfind1 : tenantsFindOne db.tenants dto.tenantId = .ok t := by
    unfold tenantsFindOne
    rw [ht]
  constructor
  · rintro ⟨u, hu, he, htid⟩
    have hsome : (db.users.find?
        (fun v => v.email == dto.email && v.tenantId == some dto.tenantId)).isSome := by
      rw [List.find?_isSome]
      exact ⟨u, hu, by simp [he, htid]⟩
    cases hf : db.users.find?
        (fun v => v.email == dto.email && v.tenantId == some dto.tenantId) with
    | none =>
      rw [hf] at hsome
      simp at hsome
    | some w =>
      simp [register, hfind1, hact, hf]
  · intro hnone
    have hf : db.users.find?
        (fun v => v.email == dto.email && v.tenantId == some dto.tenantId) = none := by
      rw [List.find?_eq_none]
      intro x hx hpx
      simp only [Bool.and_eq_true, beq_iff_eq] at hpx
      exact hnone x hx hpx
    refine ⟨⟨db.users ++
        [⟨freshUserId db, dto.email, dto.name, bcryptHash dto.password, dto.roleId,
          some dto.tenantId, true,
          some (jwtSign ⟨freshUserId db, dto.email, dto.roleId, some dto.tenantId⟩ now rl),
          some (now + sevenDaysMs)⟩], db.tenants, db.roles⟩,
      ⟨jwtSign ⟨freshUserId db, dto.email, dto.roleId, some dto.tenantId⟩ now al,
       jwtSign ⟨freshUserId db, dto.email, dto.roleId, some dto.tenantId⟩ now rl⟩,
      ?_, rfl, rfl, rfl⟩
    simp [register, hfind1, hact, hf, hrole]
    exact List.elem_iff.mp hrole

/-- Witness for C5: with an existing user (email `a@x`, tenant `t1`), a
second registration of the same email under tenant `t1` is a Conflict
while the same email under tenant `t2` is not. -/
theorem register_tenant_scoped_w :
    register
      ⟨[⟨"u0", "a@x", "Ann", bcryptHash "pw", "admin", some "t1", true, none, none⟩],
        [⟨"t1", "T One", "t1", "t1", true⟩, ⟨"t2", "T Two", "t2", "t2", true⟩],
        ["admin"]⟩
      0 10 20 ⟨"a@x", "pw2", "Bob", "admin", "t1"⟩ =
      .error (.conflict "User with this email already exists in this tenant") ∧
    register
      ⟨[⟨"u0", "a@x", "Ann", bcryptHash "pw", "admin", some "t1", true, none, none⟩],
        [⟨"t1", "T One", "t1", "t1", true⟩, ⟨"t2", "T Two", "t2", "t2", true⟩],
        ["admin"]⟩
      0 10 20 ⟨"a@x", "pw2", "Bob", "admin", "t2"⟩ ≠
      .error (.conflict "User with this email already exists in this tenant") := by
  constructor
  · exact (register_tenant_scoped
      ⟨[⟨"u0", "a@x", "Ann", bcryptHash "pw", "admin", some "t1", true, none, none⟩],
        [⟨"t1", "T One", "t1", "t1", true⟩, ⟨"t2", "T Two", "t2", "t2", true⟩],
        ["admin"]⟩
      0 10 20 ⟨"a@x", "pw2", "Bob", "admin", "t1"⟩
      ⟨"t1", "T One", "t1", "t1", true⟩ (by decide) rfl (by decide)).1
      ⟨⟨"u0", "a@x", "Ann", bcryptHash "pw", "admin", some "t1", true, none, none⟩,
        by decide, rfl, rfl⟩
  · obtain ⟨db2, ts, hok, -⟩ := (register_tenant_scoped
      ⟨[⟨"u0", "a@x", "Ann", bcryptHash "pw", "admin", some "t1", true, none, none⟩],
        [⟨"t1", "T One", "t1", "t1", true⟩, ⟨"t2", "T Two", "t2", "t2", true⟩],
        ["admin"]⟩
      0 10 20 ⟨"a@x", "pw2", "Bob", "admin", "t2"⟩
      ⟨"t2", "T Two", "t2", "t2", true⟩ (by decide) rfl (by decide)).2 (by decide)
    rw [hok]
    simp

end Pawdex
